import Mathlib

/-
Verification development for src/frappe/bencher.py.

Shallow embedding conventions:
- Python dicts are association lists (`Dict V`), with insertion-order
  semantics matching CPython: inserting an existing key updates it in place,
  inserting a fresh key appends.
- Dynamic instance attributes that the code manages lazily (the class-private
  caches) are modelled as a string-keyed attribute store, because the code
  reads and writes them under two DIFFERENT keys: assignments and deletions of
  the identifier `self.__apps` / `self.__sites` inside a class body undergo
  CPython name mangling and address `_Apps__apps` / `_Sites__sites`, while the
  guards pass the literal strings `"__apps"` / `"__sites"` to `hasattr`, which
  are not mangled. Both keys appear verbatim below so the mismatch is visible.
- Raising is modelled with `Except`; mutations performed before a raise are
  kept in the returned state, as in Python.
- The filesystem is a read-only structure of directory listings and existence
  predicates; `add_site` additionally reports the directories it creates.
- Side effects that carry no data flow (the deprecation notice emitted by the
  legacy presence checks) are omitted.
-/

namespace Bencher

/-- Exceptions raised by the code paths that the claims exercise. -/
inductive PyErr where
  | attributeError
  | fileNotFoundError
  | benchNotScopedError
  | benchSiteNotLoadedError
deriving DecidableEq, Repr

/-- Python dict as an association list in insertion order. -/
abbrev Dict (V : Type) := List (String × V)

/-- Lookup, first entry with the key (dicts never hold duplicate keys). -/
def dGet {V : Type} : Dict V → String → Option V
  | [], _ => none
  | (k2, v) :: rest, k => if k2 == k then some v else dGet rest k

/-- Key membership test, Python `k in d`. -/
def dHas {V : Type} : Dict V → String → Bool
  | [], _ => false
  | (k2, _) :: rest, k => k2 == k || dHas rest k

/-- Python `d[k] = v`: update in place if the key exists, else append. -/
def dIns {V : Type} : Dict V → String → V → Dict V
  | [], k, v => [(k, v)]
  | (k2, w) :: rest, k, v =>
    if k2 == k then (k, v) :: rest else (k2, w) :: dIns rest k v

/-- Python `del d[k]`: drop the entry with key k. -/
def dDel {V : Type} (d : Dict V) (k : String) : Dict V :=
  d.filter (fun p => !(p.1 == k))

/-- Python `a.update(b)` applied to a copy of a: fold the entries of b into a. -/
def dUpd {V : Type} (a b : Dict V) : Dict V :=
  b.foldl (fun acc p => dIns acc p.1 p.2) a

/-- Python `d.values()` in insertion order. -/
def dValues {V : Type} (d : Dict V) : List V := d.map Prod.snd

/-- Python `d.keys()` in insertion order. -/
def dKeys {V : Type} (d : Dict V) : List String := d.map Prod.fst

/-- Helper for Python substring containment, recursion over the haystack. -/
def infixAux (needle : List Char) : List Char → Bool
  | [] => needle.isEmpty
  | c :: rest => needle.isPrefixOf (c :: rest) || infixAux needle rest

/-- Python `needle in haystack` on strings: substring containment. -/
def pyIn (needle haystack : String) : Bool :=
  infixAux needle.data haystack.data

/-- Helper for Python str.title, tracking whether the previous char was a letter. -/
def titleAux : Bool → List Char → List Char
  | _, [] => []
  | prevAlpha, c :: rest =>
    if c.isAlpha then
      (if prevAlpha then c.toLower else c.toUpper) :: titleAux true rest
    else
      c :: titleAux false rest

/-- Python `s.title()` restricted to ASCII letters, which covers module names. -/
def pyTitle (s : String) : String := String.mk (titleAux false s.data)

/-- Filesystem view of the apps registry root, as Apps reads it:
the immediate entries of the root in iterdir order, whether each entry is a
directory, whether the python path `root/<d>/<d>` is a directory and holds a
`.frappe` marker, and the contents of `sites/apps.txt` (`none` = file absent,
in which case `read_text` raises FileNotFoundError). -/
structure AppsFS where
  root : String
  entries : List String
  isDir : String → Bool
  pythonPathIsDir : String → Bool
  markerExists : String → Bool
  appsTxt : Option String

/-- Apps.App value: name is the directory basename, path the directory itself. -/
structure App where
  name : String
  path : String
deriving DecidableEq, Repr

/-- Embeds FrappeComponent._is_frappe_component for an App (lines 72-73):
python_path is a directory and contains the `.frappe` marker. -/
def isFrappeComponentApp (fs : AppsFS) (name : String) : Bool :=
  fs.pythonPathIsDir name && fs.markerExists name

/-- Embeds FrappeComponent._is_app_installed (lines 75-87): substring test of
the app name against the raw text of `sites/apps.txt`; a missing file makes
`read_text` raise FileNotFoundError. The deprecation notice is a side effect
with no data flow and is omitted. -/
def isAppInstalled (fs : AppsFS) (name : String) : Except PyErr Bool :=
  match fs.appsTxt with
  | none => .error .fileNotFoundError
  | some txt => .ok (pyIn name txt)

/-- Embeds FrappeComponent.__bool__ (lines 65-70) for an Apps.App:
marker check first, else the legacy manifest check. -/
def appBool (fs : AppsFS) (name : String) : Except PyErr Bool :=
  if isFrappeComponentApp fs name then .ok true
  else isAppInstalled fs name

/-- Embeds FrappeComponent._is_module_registered (lines 89-100): substring test
of the title-cased module name against the raw text of the owning app
`modules.txt`; missing file raises FileNotFoundError. -/
def isModuleRegistered (modulesTxt : Option String) (name : String) : Except PyErr Bool :=
  match modulesTxt with
  | none => .error .fileNotFoundError
  | some txt => .ok (pyIn (pyTitle name) txt)

/-- Embeds FrappeComponent.__bool__ (lines 65-70) for an Apps.App.Module,
with the module marker check given as the two booleans it tests. -/
def moduleBool (pathIsDir markerEx : Bool) (modulesTxt : Option String) (name : String) :
    Except PyErr Bool :=
  if pathIsDir && markerEx then .ok true
  else isModuleRegistered modulesTxt name

/-- Embeds the dict comprehension of Apps.apps (lines 190-194):
`{d.name: app for d in self.path.iterdir() if d.is_dir() and (app := self.App(name=d.name, path=d))}`.
The walrus target `app` is evaluated for truthiness by `and`, which invokes
FrappeComponent.__bool__, so the condition is is_dir AND bool(app);
an exception from the presence check aborts the comprehension. -/
def scanApps (fs : AppsFS) : List String → Dict App → Except PyErr (Dict App)
  | [], acc => .ok acc
  | d :: rest, acc =>
    if fs.isDir d then
      match appBool fs d with
      | .error e => .error e
      | .ok b =>
        scanApps fs rest
          (if b then dIns acc d { name := d, path := fs.root ++ "/" ++ d } else acc)
    else
      scanApps fs rest acc

/-- Mutable state of an Apps instance: its dynamic attribute store (which can
only ever come to hold the mangled key) plus a scan counter instrumenting how
often the directory scan ran. -/
structure AppsState where
  attrs : Dict (Dict App)
  scanCount : Nat

/-- State of a freshly constructed Apps instance: no cache attribute yet. -/
def appsInit : AppsState := { attrs := [], scanCount := 0 }

/-- Embeds the Apps.apps property (lines 187-195). The guard is
`if not hasattr(self, "__apps")` with the literal, unmangled string, while the
assignment `self.__apps = ...` inside class Apps stores the mangled attribute
`_Apps__apps`, and the final `return self.__apps` reads that mangled name
(raising AttributeError were it absent). -/
def appsProp (fs : AppsFS) (st : AppsState) : Except PyErr (Dict App) × AppsState :=
  if (dGet st.attrs "__apps").isSome then
    (match dGet st.attrs "_Apps__apps" with
     | some d => .ok d
     | none => .error .attributeError, st)
  else
    match scanApps fs fs.entries [] with
    | .error e => (.error e, st)
    | .ok d =>
      let st2 : AppsState := { attrs := dIns st.attrs "_Apps__apps" d, scanCount := st.scanCount + 1 }
      (match dGet st2.attrs "_Apps__apps" with
       | some d2 => .ok d2
       | none => .error .attributeError, st2)

/-- Scope sentinel, Sites.SCOPE_ALL_SITES (line 226). -/
def SCOPE_ALL_SITES : String := "__scope-all-sites__"

/-- Sites.Site value as the registry stores it: name and directory path. -/
structure Site where
  name : String
  path : String
deriving DecidableEq, Repr

/-- Filesystem view of the sites root, as Sites reads it: the immediate
entries of the root in iterdir order, whether a given entry is a directory,
and whether `root/<d>/site_config.json` exists. -/
structure SitesFS where
  root : String
  entries : List String
  isDir : String → Bool
  hasSiteConfig : String → Bool

/-- Mutable state of a Sites instance: the dynamic attribute store for the
class-private cache, the thread-local site_name (frappe.local.site_name), and
a counter instrumenting how often the directory scan ran. -/
structure SitesState where
  attrs : Dict (Dict Site)
  siteNameLocal : Option String
  scanCount : Nat
deriving Repr

/-- State of a freshly constructed Sites instance: no cache attribute; the
initial identifier comes from the FRAPPE_SITE override or the default_site
config key consumed in __init__ and is passed in here. -/
def sitesFresh (nm : Option String) : SitesState :=
  { attrs := [], siteNameLocal := nm, scanCount := 0 }

/-- Construction of a Sites.Site from a discovered directory (line 366). -/
def mkSite (fs : SitesFS) (name : String) : Site :=
  { name := name, path := fs.root ++ "/" ++ name }

/-- Embeds the filter of the local helper _process (lines 364-366): keep a path
when it is a directory containing site_config.json. -/
def processKeep (fs : SitesFS) (name : String) : Bool :=
  fs.isDir name && fs.hasSiteConfig name

/-- Embeds the full-scan loop of Sites._sites (lines 371-373): fold _process
over iterdir, inserting into the dict under construction. -/
def scanSites (fs : SitesFS) : List String → Dict Site → Dict Site
  | [], acc => acc
  | d :: rest, acc =>
    scanSites fs rest (if processKeep fs d then dIns acc d (mkSite fs d) else acc)

/-- Embeds the Sites._sites property (lines 359-374). The guard is
`if not hasattr(self, "__sites")` with the literal, unmangled string, while
every assignment to `self.__sites` inside class Sites stores the mangled
attribute `_Sites__sites` and the final `return self.__sites` reads that
mangled name. Scan shape: a truthy non-sentinel identifier probes only its own
directory; the sentinel triggers the full iterdir scan; otherwise the dict
stays empty. -/
def sitesDict (fs : SitesFS) (st : SitesState) : Except PyErr (Dict Site) × SitesState :=
  if (dGet st.attrs "__sites").isSome then
    (match dGet st.attrs "_Sites__sites" with
     | some d => .ok d
     | none => .error .attributeError, st)
  else
    let scanned : Dict Site :=
      match st.siteNameLocal with
      | some s =>
        if s != "" && s != SCOPE_ALL_SITES then
          (if processKeep fs s then [(s, mkSite fs s)] else [])
        else if s == SCOPE_ALL_SITES then
          scanSites fs fs.entries []
        else
          []
      | none => []
    let st2 : SitesState :=
      { st with attrs := dIns st.attrs "_Sites__sites" scanned, scanCount := st.scanCount + 1 }
    (match dGet st2.attrs "_Sites__sites" with
     | some d => .ok d
     | none => .error .attributeError, st2)

/-- Embeds Sites.__getitem__ (lines 387-391): read through _sites; a missing
key becomes BenchSiteNotLoadedError. -/
def sitesGetitem (fs : SitesFS) (st : SitesState) (key : String) :
    Except PyErr Site × SitesState :=
  match sitesDict fs st with
  | (.error e, st2) => (.error e, st2)
  | (.ok d, st2) =>
    match dGet d key with
    | some s => (.ok s, st2)
    | none => (.error .benchSiteNotLoadedError, st2)

/-- Embeds the Sites.site property (lines 352-357): a falsy identifier (absent
or empty) or the sentinel raises BenchNotScopedError, else indexed lookup. -/
def siteProp (fs : SitesFS) (st : SitesState) : Except PyErr Site × SitesState :=
  match st.siteNameLocal with
  | none => (.error .benchNotScopedError, st)
  | some s =>
    if s == "" || s == SCOPE_ALL_SITES then (.error .benchNotScopedError, st)
    else sitesGetitem fs st s

/-- Embeds Sites.scope (lines 336-346). `scope(None)` returns the site
property. Otherwise `del self.__sites` runs first: it deletes the mangled
attribute `_Sites__sites` and raises AttributeError when that attribute is
absent, before the identifier is assigned. Then the identifier is set; a
non-sentinel name returns the site property, the sentinel raises
BenchNotScopedError. -/
def scope (fs : SitesFS) (st : SitesState) (arg : Option String) :
    Except PyErr Site × SitesState :=
  match arg with
  | none => siteProp fs st
  | some name =>
    if (dGet st.attrs "_Sites__sites").isSome then
      let st1 : SitesState := { st with attrs := dDel st.attrs "_Sites__sites" }
      let st2 : SitesState := { st1 with siteNameLocal := some name }
      if name != SCOPE_ALL_SITES then siteProp fs st2
      else (.error .benchNotScopedError, st2)
    else
      (.error .attributeError, st)

/-- Embeds Sites.__iter__ (lines 376-382): sentinel iterates the _sites
values, a truthy name yields the single indexed site, else
BenchNotScopedError. -/
def sitesIter (fs : SitesFS) (st : SitesState) : Except PyErr (List Site) × SitesState :=
  match st.siteNameLocal with
  | some s =>
    if s == SCOPE_ALL_SITES then
      match sitesDict fs st with
      | (.ok d, st2) => (.ok (dValues d), st2)
      | (.error e, st2) => (.error e, st2)
    else if s != "" then
      match sitesGetitem fs st s with
      | (.ok site, st2) => (.ok [site], st2)
      | (.error e, st2) => (.error e, st2)
    else
      (.error .benchNotScopedError, st)
  | none => (.error .benchNotScopedError, st)

/-- Embeds Sites.remove_site (lines 329-334): the membership test
`site_name in self.__sites` reads the mangled attribute (AttributeError when
absent); when the key is present the entry is deleted from the stored dict,
otherwise nothing happens. The filesystem is not touched. -/
def removeSite (st : SitesState) (name : String) : Except PyErr Unit × SitesState :=
  match dGet st.attrs "_Sites__sites" with
  | none => (.error .attributeError, st)
  | some d =>
    if dHas d name then
      (.ok (), { st with attrs := dIns st.attrs "_Sites__sites" (dDel d name) })
    else
      (.ok (), st)

/-- Directory skeleton Sites.add_site creates (lines 318-325), in order. -/
def addSiteDirs (fs : SitesFS) (name : String) : List String :=
  [fs.root ++ "/" ++ name ++ "/public/files",
   fs.root ++ "/" ++ name ++ "/private/backups",
   fs.root ++ "/" ++ name ++ "/private/files",
   fs.root ++ "/" ++ name ++ "/locks",
   fs.root ++ "/" ++ name ++ "/logs"]

/-- Embeds Sites.add_site (lines 317-327): the mkdir loop runs first (the
created directories are returned as the third component), then
`self.__sites[site_name] = Site(...)` reads the mangled cache attribute,
raising AttributeError when it was never stored. -/
def addSite (fs : SitesFS) (st : SitesState) (name : String) :
    Except PyErr Unit × SitesState × List String :=
  let created := addSiteDirs fs name
  match dGet st.attrs "_Sites__sites" with
  | none => (.error .attributeError, st, created)
  | some d =>
    (.ok (),
     { st with attrs := dIns st.attrs "_Sites__sites" (dIns d name (mkSite fs name)) },
     created)

/-- Config-relevant state of a Sites.Site. Modelled from the spec: the
ConfigHandler base class lives in frappe/config.py, which is not under src/;
per spec section 4.2 its config property exposes the mapping loaded from the
backing JSON file, so site_config holds that loaded mapping, and config_stale
is the staleness flag the merge trigger reads. -/
structure SiteCfgState (V : Type) where
  site_config : Dict V
  combined : Option (Dict V)
  config_stale : Bool

/-- Embeds the Sites.Site.config property (lines 268-276). Recompute trigger:
no cached merge yet (hasattr on the unmangled single-underscore name, which
does work), or the own store stale, or the registry store stale. Recompute:
copy the registry config, update it with a copy of the own config, cache.
`ConfigType(**config)` rebuilds the same mapping and is the identity here. -/
def siteConfigProp {V : Type} (commonConfig : Dict V) (sitesConfigStale : Bool)
    (st : SiteCfgState V) : Dict V × SiteCfgState V :=
  if st.combined.isNone || st.config_stale || sitesConfigStale then
    let merged := dUpd commonConfig st.site_config
    (merged, { st with combined := some merged })
  else
    (st.combined.getD [], st)


/-- Reachable shapes of the class-private attribute store of a Sites instance:
the code only ever stores the single mangled key, so at any point the store is
either empty (fresh instance, or right after the del in scope) or holds
exactly the mangled cache attribute. -/
def reachAttrs {V : Type} (c : Option (Dict V)) : Dict (Dict V) :=
  match c with
  | none => []
  | some d => [("_Sites__sites", d)]

/-- Registry state scoped to the all-sentinel with a reachable attribute
store, used to quantify over every registry the code can construct. -/
def scopedAllState (c : Option (Dict Site)) (n0 : Nat) : SitesState :=
  { attrs := reachAttrs c, siteNameLocal := some SCOPE_ALL_SITES, scanCount := n0 }

/-- Registry state whose mangled cache attribute is present (any registry
whose tenant mapping was read since the last scope call), with an arbitrary
identifier. -/
def cachedState (d : Dict Site) (nm0 : Option String) (n0 : Nat) : SitesState :=
  { attrs := reachAttrs (some d), siteNameLocal := nm0, scanCount := n0 }

/-- Input refuting C1: two immediate subdirectories of the apps root, of which
only erpnext passes the presence check (marker file); custom has no marker and
is not listed in sites/apps.txt. -/
def fsC1 : AppsFS :=
  { root := "/bench/apps", entries := ["erpnext", "custom"], isDir := fun _ => true,
    pythonPathIsDir := fun _ => true, markerExists := (fun d => d == "erpnext"),
    appsTxt := some "frappe\nerpnext\n" }

/-- Input refuting C2: a single present app under the registry root. -/
def fsC2 : AppsFS :=
  { root := "/bench/apps", entries := ["frappe"], isDir := fun _ => true,
    pythonPathIsDir := fun _ => true, markerExists := fun _ => true,
    appsTxt := some "" }

/-- Input refuting C4: two tenant directories with config markers. -/
def fsC4 : SitesFS :=
  { root := "/bench/sites", entries := ["a", "b"], isDir := fun _ => true,
    hasSiteConfig := fun _ => true }

/-- Witness input for C5: one tenant directory with the marker, one
non-directory entry, one directory lacking the marker. -/
def fsC5w : SitesFS :=
  { root := "/bench/sites", entries := ["site1", "junk", "nocfg"],
    isDir := (fun d => d != "junk"), hasSiteConfig := (fun d => d == "site1") }

/-- Input refuting C6: the tenant root contains site1 with its config marker. -/
def fsC6 : SitesFS :=
  { root := "/bench/sites", entries := ["site1"], isDir := fun _ => true,
    hasSiteConfig := (fun d => d == "site1") }

/-- Input refuting C7: one tenant directory s1 with its config marker. -/
def fsC7 : SitesFS :=
  { root := "/bench/sites", entries := ["s1"], isDir := fun _ => true,
    hasSiteConfig := fun _ => true }

/-- Registry state for C7 after the tenant mapping has been read once while
scoped to all: the mangled cache attribute holds the s1 entry. -/
def c7Loaded : SitesState := (sitesDict fsC7 (sitesFresh (some SCOPE_ALL_SITES))).2

/-- Input refuting C8: an empty tenant root. -/
def fsC8 : SitesFS :=
  { root := "/bench/sites", entries := [], isDir := fun _ => true,
    hasSiteConfig := fun _ => false }

/-- Input for the C10 counterexample: one tenant directory with the marker. -/
def fsC10 : SitesFS :=
  { root := "/bench/sites", entries := ["s1"], isDir := fun _ => true,
    hasSiteConfig := fun _ => true }

/-- Witness input for C9: an app directory erp with no marker, while the
legacy manifest lists erpnext, of which erp is a proper substring. -/
def fsC9 : AppsFS :=
  { root := "/bench/apps", entries := ["erp"], isDir := fun _ => true,
    pythonPathIsDir := fun _ => true, markerExists := fun _ => false,
    appsTxt := some "frappe\nerpnext\n" }

/-- Lookup distributes over dict concatenation, first hit wins. -/
theorem dGet_append {V : Type} (a b : Dict V) (k : String) :
    dGet (a ++ b) k = match dGet a k with | some v => some v | none => dGet b k := by
  induction a with
  | nil => simp [dGet]
  | cons p rest ih =>
    obtain ⟨k2, v⟩ := p
    by_cases h : k2 == k
    · simp [dGet, h]
    · simp [dGet, h, ih]

/-- Lookup of an absent key yields none. -/
theorem dGet_eq_none_of_dHas_false {V : Type} {d : Dict V} {k : String}
    (h : dHas d k = false) : dGet d k = none := by
  induction d with
  | nil => rfl
  | cons p rest ih =>
    obtain ⟨k2, v⟩ := p
    simp only [dHas, Bool.or_eq_false_iff] at h
    simp [dGet, h.1, ih h.2]

/-- Inserting a fresh key appends the binding. -/
theorem dIns_of_dHas_false {V : Type} {d : Dict V} {k : String} (v : V)
    (h : dHas d k = false) : dIns d k v = d ++ [(k, v)] := by
  induction d with
  | nil => rfl
  | cons p rest ih =>
    obtain ⟨k2, w⟩ := p
    simp only [dHas, Bool.or_eq_false_iff] at h
    simp [dIns, h.1, ih h.2]

/-- Lookup after insertion at the same key returns the inserted value. -/
theorem dGet_dIns_self {V : Type} (d : Dict V) (k : String) (v : V) :
    dGet (dIns d k v) k = some v := by
  induction d with
  | nil => simp [dIns, dGet]
  | cons p rest ih =>
    obtain ⟨k2, w⟩ := p
    cases h2 : (k2 == k) with
    | true => simp [dIns, dGet, h2]
    | false => simp [dIns, dGet, h2, ih]

/-- Lookup after insertion at a different key is unchanged. -/
theorem dGet_dIns_ne {V : Type} (d : Dict V) {key k : String} (v : V) (h : key ≠ k) :
    dGet (dIns d key v) k = dGet d k := by
  induction d with
  | nil => simp [dIns, dGet, h]
  | cons p rest ih =>
    obtain ⟨k2, w⟩ := p
    cases h2 : (k2 == key) with
    | true =>
      have hk2 : k2 = key := by simpa using h2
      simp [dIns, dGet, h2, hk2, h]
    | false =>
      simp [dIns, dGet, h2, ih]

/-- Key membership distributes over dict concatenation. -/
theorem dHas_append {V : Type} (a b : Dict V) (k : String) :
    dHas (a ++ b) k = (dHas a k || dHas b k) := by
  induction a with
  | nil => simp [dHas]
  | cons p rest ih =>
    obtain ⟨k2, w⟩ := p
    simp [dHas, ih, Bool.or_assoc]

/-- Lookup of a key outside the key list yields none. -/
theorem dGet_eq_none_of_not_mem {V : Type} {d : Dict V} {k : String}
    (h : ¬ k ∈ dKeys d) : dGet d k = none := by
  induction d with
  | nil => rfl
  | cons p rest ih =>
    obtain ⟨k2, w⟩ := p
    simp only [dKeys, List.map_cons, List.mem_cons, not_or] at h
    have h2 : (k2 == k) = false := beq_eq_false_iff_ne.mpr (fun hx => h.1 hx.symm)
    simp only [dGet, h2, Bool.false_eq_true, if_false]
    exact ih h.2

/-- Lookup through a dict update: the overlay wins where it binds the key,
otherwise the base answers, provided the overlay has no duplicate keys. -/
theorem dGet_dUpd {V : Type} :
    ∀ (B A : Dict V), (dKeys B).Nodup → ∀ k : String,
    dGet (dUpd A B) k = match dGet B k with | some v => some v | none => dGet A k := by
  intro B
  induction B with
  | nil => intro A _ k; simp [dUpd, dGet]
  | cons p rest ih =>
    intro A hnd k
    obtain ⟨k2, v2⟩ := p
    simp only [dKeys, List.map_cons, List.nodup_cons] at hnd
    have step : dUpd A ((k2, v2) :: rest) = dUpd (dIns A k2 v2) rest := rfl
    rw [step, ih (dIns A k2 v2) hnd.2 k]
    cases h2 : (k2 == k) with
    | true =>
      have hk : k2 = k := by simpa using h2
      have hrest : dGet rest k = none := dGet_eq_none_of_not_mem (by rw [← hk]; exact hnd.1)
      simp [dGet, h2, hrest, hk, dGet_dIns_self]
    | false =>
      have hne : k2 ≠ k := by simpa using h2
      cases hr : dGet rest k with
      | some v => simp [dGet, h2, hr]
      | none => simp [dGet, h2, hr, dGet_dIns_ne A v2 hne]

/-- The full-directory scan of Sites._sites: folding _process over a
duplicate-free listing extends the accumulator with one binding per
directory passing the marker filter, in scan order. -/
theorem scanSites_eq_append (fs : SitesFS) :
    ∀ (l : List String) (acc : Dict Site), (∀ x ∈ l, dHas acc x = false) → l.Nodup →
    scanSites fs l acc =
      acc ++ (l.filter (fun d => processKeep fs d)).map (fun d => (d, mkSite fs d)) := by
  intro l
  induction l with
  | nil => intro acc _ _; simp [scanSites]
  | cons d rest ih =>
    intro acc hacc hnd
    have hd : dHas acc d = false := hacc d (by simp)
    rw [List.nodup_cons] at hnd
    cases hp : processKeep fs d with
    | true =>
      have hins : dIns acc d (mkSite fs d) = acc ++ [(d, mkSite fs d)] :=
        dIns_of_dHas_false _ hd
      have hrest : ∀ x ∈ rest, dHas (acc ++ [(d, mkSite fs d)]) x = false := by
        intro x hx
        rw [dHas_append]
        have h1 : dHas acc x = false := hacc x (by simp [hx])
        have hdx : (d == x) = false :=
          beq_eq_false_iff_ne.mpr (fun he => hnd.1 (he ▸ hx))
        simp [h1, dHas, hdx]
      have hstep : scanSites fs (d :: rest) acc = scanSites fs rest (dIns acc d (mkSite fs d)) := by
        simp [scanSites, hp]
      have hfilter : (d :: rest).filter (fun x => processKeep fs x) =
          d :: rest.filter (fun x => processKeep fs x) := by
        simp [List.filter_cons, hp]
      rw [hstep, hins, ih _ hrest hnd.2, hfilter, List.map_cons,
        List.append_assoc, List.singleton_append]
    | false =>
      have hrest : ∀ x ∈ rest, dHas acc x = false := fun x hx => hacc x (by simp [hx])
      have hstep : scanSites fs (d :: rest) acc = scanSites fs rest acc := by
        simp [scanSites, hp]
      have hfilter : (d :: rest).filter (fun x => processKeep fs x) =
          rest.filter (fun x => processKeep fs x) := by
        simp [List.filter_cons, hp]
      rw [hstep, hfilter, ih _ hrest hnd.2]

/-- C1: the claim states that reading the components and modules mappings
never filters entries by the presence check. The code does filter: the dict
comprehension condition `d.is_dir() and (app := self.App(...))` evaluates the
walrus-bound component for truthiness, which is FrappeComponent.__bool__, the
presence check. At fsC1 the subdirectory custom (no marker, not a substring
of apps.txt) is missing from the returned mapping. -/
theorem apps_scan_filters_by_presence_eval :
    (appsProp fsC1 appsInit).1 =
      .ok [("erpnext", { name := "erpnext", path := "/bench/apps/erpnext" })] ∧
    (appsProp fsC1 appsInit).1.map (fun d => dHas d "custom") = .ok false :=
  ⟨rfl, rfl⟩

/-- C2: the claim states that the second read of components performs no
additional scan and returns the cached mapping. The guard
`if not hasattr(self, "__apps")` tests the unmangled name while the cache is
stored under the mangled name `_Apps__apps`, so it is always true and the
scan reruns on every access: after two reads the scan counter is 2, though
both reads return equal mappings. -/
theorem apps_second_read_rescans_eval :
    (appsProp fsC2 appsInit).1 = (appsProp fsC2 (appsProp fsC2 appsInit).2).1 ∧
    (appsProp fsC2 appsInit).2.scanCount = 1 ∧
    (appsProp fsC2 (appsProp fsC2 appsInit).2).2.scanCount = 2 :=
  ⟨rfl, rfl, rfl⟩

/-- C3: the merged config returned by the Site config accessor is the
registry-wide mapping A overlaid by the tenant mapping B: on shared keys the
tenant value wins, keys bound on only one side keep that binding. Stated for
a tenant whose merge has not been computed yet, whose own loaded config is B,
with B duplicate-free as Python dicts are. -/
theorem site_config_tenant_wins {V : Type} (A B : Dict V) (sitesConfigStale : Bool)
    (st : SiteCfgState V) (hfresh : st.combined = none) (hcfg : st.site_config = B)
    (hnd : (dKeys B).Nodup) (k : String) :
    dGet ((siteConfigProp A sitesConfigStale st).1) k =
      match dGet B k with | some v => some v | none => dGet A k := by
  have hmerge : (siteConfigProp A sitesConfigStale st).1 = dUpd A B := by
    simp [siteConfigProp, hfresh, hcfg]
  rw [hmerge, dGet_dUpd B A hnd k]

/-- C3 witness: the spec example, installation config a=1, b=1 overlaid with
tenant config b=2 yields b=2 (tenant wins) and a=1 (kept from the base). -/
theorem site_config_tenant_wins_witness :
    dGet ((siteConfigProp [("a", (1 : Int)), ("b", 1)] false
      { site_config := [("b", (2 : Int))], combined := none, config_stale := false }).1) "b"
      = some 2 ∧
    dGet ((siteConfigProp [("a", (1 : Int)), ("b", 1)] false
      { site_config := [("b", (2 : Int))], combined := none, config_stale := false }).1) "a"
      = some 1 := by
  constructor
  · exact (site_config_tenant_wins [("a", (1 : Int)), ("b", 1)] [("b", (2 : Int))] false
      { site_config := [("b", (2 : Int))], combined := none, config_stale := false }
      rfl rfl (by decide) "b").trans (by rfl)
  · exact (site_config_tenant_wins [("a", (1 : Int)), ("b", 1)] [("b", (2 : Int))] false
      { site_config := [("b", (2 : Int))], combined := none, config_stale := false }
      rfl rfl (by decide) "a").trans (by rfl)

/-- C4: the claim states that every scope(name) call invalidates the cached
tenant mapping and sets the active identifier to name. On a fresh registry
(no prior _sites access) `del self.__sites` raises AttributeError, since the
mangled attribute `_Sites__sites` was never stored, before the identifier
assignment runs: the call fails and the identifier stays unset. -/
theorem scope_on_fresh_registry_raises_eval :
    (scope fsC4 (sitesFresh none) (some "a")).1 = .error .attributeError ∧
    (scope fsC4 (sitesFresh none) (some "a")).2.siteNameLocal = none :=
  ⟨rfl, rfl⟩

/-- C5: with the identifier at the all-sentinel, iterating a tenant registry
enumerates exactly the immediate subdirectories of the tenant root that
contain site_config.json, one Tenant per such directory, in scan order, for
either reachable shape of the cache attribute store. -/
theorem iter_scoped_all_enumerates_marker_dirs (fs : SitesFS) (c : Option (Dict Site))
    (n0 : Nat) (hnd : fs.entries.Nodup) :
    (sitesIter fs (scopedAllState c n0)).1 =
      .ok ((fs.entries.filter (fun d => processKeep fs d)).map (fun d => mkSite fs d)) := by
  have hscan := scanSites_eq_append fs fs.entries [] (fun x _ => rfl) hnd
  cases c with
  | none =>
    have h1 : (sitesIter fs (scopedAllState none n0)).1 =
        .ok (dValues (scanSites fs fs.entries [])) := rfl
    rw [h1, hscan]
    simp [dValues]
  | some d =>
    have h1 : (sitesIter fs (scopedAllState (some d) n0)).1 =
        .ok (dValues (scanSites fs fs.entries [])) := rfl
    rw [h1, hscan]
    simp [dValues]

/-- C5 witness: at fsC5w only site1 passes the filter, and it comes out as
the single iterated Tenant. -/
theorem iter_scoped_all_enumerates_marker_dirs_witness :
    (sitesIter fsC5w (scopedAllState none 0)).1 = .ok [mkSite fsC5w "site1"] :=
  (iter_scoped_all_enumerates_marker_dirs fsC5w none 0 (by decide)).trans (by rfl)

/-- C6: the claim includes the end-to-end run where scope on a registry whose
root holds site1 returns the Tenant named site1. The unscoped parts hold
(site and iteration raise BenchNotScopedError), but on a fresh registry
the scope call itself raises AttributeError from the unguarded
`del self.__sites` of the never-stored mangled attribute. -/
theorem site_unscoped_then_scope_eval :
    (siteProp fsC6 (sitesFresh none)).1 = .error .benchNotScopedError ∧
    (sitesIter fsC6 (sitesFresh none)).1 = .error .benchNotScopedError ∧
    (scope fsC6 (sitesFresh none) (some "site1")).1 = .error .attributeError :=
  ⟨rfl, rfl, rfl⟩

/-- C7: the claim states remove_site removes the name from all subsequent
lookups. At c7Loaded the cache holds s1; remove_site deletes it from the
stored dict, but the next lookup reruns the scan (the hasattr guard tests the
unmangled name and never fires) and rediscovers s1 from disk, so the lookup
succeeds again. The embedding never mutates the filesystem structure. -/
theorem remove_site_not_persistent_eval :
    dGet c7Loaded.attrs "_Sites__sites" = some [("s1", mkSite fsC7 "s1")] ∧
    (removeSite c7Loaded "s1").1 = .ok () ∧
    dGet (removeSite c7Loaded "s1").2.attrs "_Sites__sites" = some [] ∧
    (sitesGetitem fsC7 (removeSite c7Loaded "s1").2 "s1").1 = .ok (mkSite fsC7 "s1") :=
  ⟨rfl, rfl, rfl, rfl⟩

/-- C8: the claim states add_site succeeds in any scope state. On a registry
scoped to x with no prior _sites access, the mkdir loop creates the skeleton
directories, but the cache insertion `self.__sites[site_name] = ...` then
raises AttributeError because the mangled attribute was never stored; the
identifier is untouched. -/
theorem add_site_fresh_registry_raises_eval :
    (addSite fsC8 (sitesFresh (some "x")) "s2").1 = .error .attributeError ∧
    (addSite fsC8 (sitesFresh (some "x")) "s2").2.2 =
      ["/bench/sites/s2/public/files", "/bench/sites/s2/private/backups",
       "/bench/sites/s2/private/files", "/bench/sites/s2/locks", "/bench/sites/s2/logs"] ∧
    (addSite fsC8 (sitesFresh (some "x")) "s2").2.1.siteNameLocal = some "x" :=
  ⟨rfl, rfl, rfl⟩

/-- C9: the legacy presence checks are substring matches over the raw
manifest text: for an App failing the marker check with sites/apps.txt
readable, truthiness equals the substring test of the name against the file
text; for a Module failing the marker check with modules.txt readable,
truthiness equals the substring test of the title-cased name. -/
theorem legacy_presence_substring_match (fsA : AppsFS) (nameA txtA : String)
    (hA : isFrappeComponentApp fsA nameA = false) (hTxt : fsA.appsTxt = some txtA)
    (pd me : Bool) (nameM txtM : String) (hM : (pd && me) = false) :
    appBool fsA nameA = .ok (pyIn nameA txtA) ∧
    moduleBool pd me (some txtM) nameM = .ok (pyIn (pyTitle nameM) txtM) := by
  constructor
  · simp [appBool, hA, isAppInstalled, hTxt]
  · simp [moduleBool, hM, isModuleRegistered]

/-- C9 witness: the app named erp with no marker is truthy because erp is a
substring of the listed erpnext; the module stock with no marker is truthy
because Stock occurs in modules.txt. -/
theorem legacy_presence_substring_match_witness :
    appBool fsC9 "erp" = .ok true ∧
    moduleBool true false (some "Stock\nSelling\n") "stock" = .ok true := by
  have h := legacy_presence_substring_match fsC9 "erp" "frappe\nerpnext\n" rfl rfl
    true false "stock" "Stock\nSelling\n" rfl
  exact ⟨h.1.trans (by rfl), h.2.trans (by rfl)⟩

/-- C10 counterexample: the claim states scope at the all-sentinel raises
BenchNotScopedError with the identifier set to the sentinel before the
raise. On a fresh registry the call instead raises AttributeError from the
unguarded del of the never-stored mangled attribute, and the identifier
keeps its previous value. -/
theorem scope_all_fresh_raises_attribute_error :
    (scope fsC10 (sitesFresh (some "s1")) (some SCOPE_ALL_SITES)).1 =
      .error .attributeError ∧
    (scope fsC10 (sitesFresh (some "s1")) (some SCOPE_ALL_SITES)).2.siteNameLocal =
      some "s1" ∧
    (scope fsC10 (sitesFresh (some "s1")) (some SCOPE_ALL_SITES)).1 ≠
      .error .benchNotScopedError := by
  refine ⟨rfl, rfl, ?_⟩
  intro h
  rw [show (scope fsC10 (sitesFresh (some "s1")) (some SCOPE_ALL_SITES)).1 =
    Except.error PyErr.attributeError from rfl] at h
  injection h with h2
  exact PyErr.noConfusion h2

/-- C10 amended: when the mangled cache attribute is present (any registry
whose tenant mapping was read since the last scope call), scope at the
all-sentinel raises BenchNotScopedError and the raise is not atomic: the
cached mapping is deleted and the identifier is set to the sentinel first,
so iteration afterwards performs the full directory scan. -/
theorem scope_all_nonatomic_raise_when_cache_attr_present (fs : SitesFS) (d : Dict Site)
    (nm0 : Option String) (n0 : Nat) :
    (scope fs (cachedState d nm0 n0) (some SCOPE_ALL_SITES)).1 =
      .error .benchNotScopedError ∧
    (scope fs (cachedState d nm0 n0) (some SCOPE_ALL_SITES)).2.siteNameLocal =
      some SCOPE_ALL_SITES ∧
    dGet (scope fs (cachedState d nm0 n0) (some SCOPE_ALL_SITES)).2.attrs "_Sites__sites" =
      none ∧
    (sitesIter fs (scope fs (cachedState d nm0 n0) (some SCOPE_ALL_SITES)).2).1 =
      .ok (dValues (scanSites fs fs.entries [])) :=
  ⟨rfl, rfl, rfl, rfl⟩

end Bencher
